import Mathlib

/-
Verification of the presubmit "query" subsystem of vanadium/go.devtools.

The Go source being modelled is the presubmit tool's query command
(`runQuery`, `clsSender.sendCLListsToPresubmitTest`, `processCLList`,
`getTestsToRun`, `removeQueuedOutdatedBuilds`, `isBuildOutdated`,
`checkEmailAddress` and friends).  Go strings are modelled as `List Char`
with structural-recursion analogues of the string operations the code
uses (`strings.Split`, `strings.HasSuffix`, `strings.ToLower`,
`strconv.Atoi`, `strings.Join`), so that the kernel can evaluate every
definition on concrete inputs.  Go maps from CL number to patchset are
modelled as association lists built exclusively through an
overwrite-on-insert operation, which mirrors Go map assignment; the only
observations the code makes of such a map (sorted key list, key lookup,
indexing with zero default, existential range loops) are order-independent,
so the association-list model is faithful.

External collaborators (the Jenkins client, the Gerrit client, file I/O,
the tool configuration) appear as explicit environment records holding the
results the Go code would obtain from them, exactly at the call sites where
the Go code consumes those results.  Library helpers of the project that
are not part of the provided sources are modelled from the specification
and carry a doc comment saying so.
-/

/-! ## Strings modelled as lists of characters -/

/-- Go strings are modelled as lists of characters. -/
abbrev Str := List Char

/-- Embed a Lean string literal into the model. -/
def str (s : String) : Str := s.data

/-- `strings.Split(s, sep)` for a one-character separator: splits `s` on every
occurrence of `sep`; the result always has one more element than the number of
separator occurrences (`splitOnChar sep [] = [[]]`, as in Go). -/
def splitOnChar (sep : Char) : Str → List Str
  | [] => [[]]
  | c :: rest =>
    let r := splitOnChar sep rest
    if c = sep then [] :: r
    else
      match r with
      | [] => [[c]]
      | h :: t => (c :: h) :: t

/-- Numeric value of a decimal digit character, `none` for non-digits. -/
def digitVal (c : Char) : Option Nat :=
  if '0' ≤ c ∧ c ≤ '9' then some (c.toNat - '0'.toNat) else none

/-- Accumulating loop of `strToNat?`. -/
def strToNatAux : Str → Nat → Option Nat
  | [], acc => some acc
  | c :: rest, acc =>
    match digitVal c with
    | some d => strToNatAux rest (acc * 10 + d)
    | none => none

/-- `strconv.Atoi` restricted to non-negative decimal numerals: `some n` when
the string is a non-empty all-digit string, `none` otherwise. -/
def strToNat? (s : Str) : Option Nat :=
  match s with
  | [] => none
  | _ => strToNatAux s 0

/-- `strings.HasSuffix(s, suffix)`. -/
def strHasSuffix (s suffix : Str) : Bool :=
  decide (s.drop (s.length - suffix.length) = suffix)

/-- `strings.ToLower(s)`. -/
def strToLower (s : Str) : Str := s.map Char.toLower

/-- `strings.Join(l, sep)`. -/
def strJoin (sep : Str) : List Str → Str
  | [] => []
  | [x] => x
  | x :: rest => x ++ sep ++ strJoin sep rest

/-- Decimal rendering of a natural number (for `fmt.Sprintf("%d", n)`). -/
def natToStr (n : Nat) : Str := (toString n).data

/-! ## CL-number-to-patchset maps

`type clNumberToPatchsetMap map[int]int` is modelled as an association list
written only through `insertCl`, which overwrites an existing key exactly as
Go map assignment does. -/

/-- A map from CL numbers to the latest patchset of the CL
(`clNumberToPatchsetMap` in the source). -/
abbrev clNumberToPatchsetMap := List (Nat × Nat)

/-- Go map assignment `m[k] = v`: overwrite the binding of `k` if present,
otherwise add it. -/
def insertCl (m : clNumberToPatchsetMap) (k v : Nat) : clNumberToPatchsetMap :=
  if m.any (fun p => p.1 == k) then
    m.map fun p => if p.1 == k then (k, v) else p
  else
    m ++ [(k, v)]

/-- Go map lookup with presence test: `v, ok := m[k]`. -/
def lookupCl (m : clNumberToPatchsetMap) (k : Nat) : Option Nat :=
  (m.find? fun p => p.1 == k).map Prod.snd

/-- Go map indexing `m[k]`, which yields the zero value for an absent key. -/
def mapGet (m : clNumberToPatchsetMap) (k : Nat) : Nat :=
  (lookupCl m k).getD 0

/-- `sortedKeys` from the source: the keys of the map, sorted increasingly. -/
def sortedKeys (m : clNumberToPatchsetMap) : List Nat :=
  List.insertionSort (· ≤ ·) (m.map Prod.fst)

/-! ## Parsing Gerrit reference strings -/

/-- Modelled from the spec: `gerrit.ParseRefString` lives in the `gerrit`
library package, which is not among the provided sources.  Per the spec a
reference string has the form `refs/changes/NN/NNNN/P` — five `/`-separated
fields whose last two are the numeric change number and patchset — and
parsing fails (`RefParseError`) when the string cannot be decomposed into
such a `(change, patchset)` pair. -/
def ParseRefString (ref : Str) : Option (Nat × Nat) :=
  match splitOnChar '/' ref with
  | [_, _, _, c, p] =>
    match strToNat? c, strToNat? p with
    | some cl, some patchset => some (cl, patchset)
    | _, _ => none
  | _ => none

/-- The ref-parsing loop at the top of `isBuildOutdated`: parse each
`:`-separated ref of the build's refs string into the map `curCLs`. -/
def parseRefsLoop : List Str → clNumberToPatchsetMap → Option clNumberToPatchsetMap
  | [], m => some m
  | r :: rest, m =>
    match ParseRefString r with
    | none => none
    | some (cl, patchset) => parseRefsLoop rest (insertCl m cl patchset)

/-- Parse a build's (possibly `:`-joined) refs string into a
`clNumberToPatchsetMap`, as the first step of `isBuildOutdated` does. -/
def parseRefsToMap (curRefs : Str) : Option clNumberToPatchsetMap :=
  parseRefsLoop (splitOnChar ':' curRefs) []

/-! ## The outdated-build check -/

/-- `isBuildOutdated(curRefs, newCLs)` from the source: decides whether a
build identified by its refs string is older than the CLs in `newCLs`.
`none` models the error return when a ref fails to parse. -/
def isBuildOutdated (curRefs : Str) (newCLs : clNumberToPatchsetMap) : Option Bool :=
  match parseRefsToMap curRefs with
  | none => none
  | some curCLs =>
    let newCLNumbers := sortedKeys newCLs
    if sortedKeys curCLs = newCLNumbers then
      some (newCLNumbers.all fun clNumber =>
        ! decide (mapGet newCLs clNumber < mapGet curCLs clNumber))
    else
      some (curCLs.any fun p =>
        match lookupCl newCLs p.1 with
        | some newPatchset => decide (p.2 ≤ newPatchset)
        | none => false)

/-- C1: when the build's refs parse into a map whose sorted change-number list
(equivalently, set of change numbers, both maps having unique keys) equals the
registry's, `isBuildOutdated` returns `true` iff every change number's registry
patchset is at least the build's recorded patchset, and `false` iff some change
number's registry patchset is strictly below the build's recorded patchset. -/
theorem isBuildOutdated_equal_sets (curRefs : Str)
    (newCLs curCLs : clNumberToPatchsetMap)
    (h1 : parseRefsToMap curRefs = some curCLs)
    (h2 : sortedKeys curCLs = sortedKeys newCLs) :
    (isBuildOutdated curRefs newCLs = some true ↔
      ∀ clNumber ∈ sortedKeys newCLs, mapGet curCLs clNumber ≤ mapGet newCLs clNumber) ∧
    (isBuildOutdated curRefs newCLs = some false ↔
      ∃ clNumber ∈ sortedKeys newCLs, mapGet newCLs clNumber < mapGet curCLs clNumber) := by
  unfold isBuildOutdated
  rw [h1]
  simp only [Option.some.injEq]
  rw [if_pos h2]
  constructor
  · simp [List.all_eq_true, Nat.not_lt]
  · constructor
    · intro h
      have h' : (sortedKeys newCLs).all
          (fun clNumber => ! decide (mapGet newCLs clNumber < mapGet curCLs clNumber)) = false := by
        simpa using h
      rcases List.all_eq_false.mp h' with ⟨k, hk, hlt⟩
      refine ⟨k, hk, ?_⟩
      simpa using hlt
    · rintro ⟨k, hk, hlt⟩
      simp only [Option.some.injEq]
      exact List.all_eq_false.mpr ⟨k, hk, by simpa using hlt⟩

/-- Witness for `isBuildOutdated_equal_sets` at a concrete input. -/
theorem isBuildOutdated_equal_sets_witness :
    parseRefsToMap (str "refs/changes/00/1000/2:refs/changes/00/2000/1") =
      some [(1000, 2), (2000, 1)] ∧
    isBuildOutdated (str "refs/changes/00/1000/2:refs/changes/00/2000/1")
      [(1000, 2), (2000, 5)] = some true :=
  ⟨by decide,
   (isBuildOutdated_equal_sets _ [(1000, 2), (2000, 5)] [(1000, 2), (2000, 1)]
      (by decide) (by decide)).1.mpr (by decide)⟩

/-- C2: when the build's refs parse into a map whose sorted change-number list
differs from the registry's (the two maps, having unique keys, cover different
change-number sets), `isBuildOutdated` returns `true` iff some change number
present in both maps has a registry patchset at least the build's patchset for
that change. -/
theorem isBuildOutdated_diff_sets (curRefs : Str)
    (newCLs curCLs : clNumberToPatchsetMap)
    (h1 : parseRefsToMap curRefs = some curCLs)
    (h2 : sortedKeys curCLs ≠ sortedKeys newCLs) :
    isBuildOutdated curRefs newCLs = some true ↔
      ∃ p ∈ curCLs, ∃ newPatchset,
        lookupCl newCLs p.1 = some newPatchset ∧ p.2 ≤ newPatchset := by
  unfold isBuildOutdated
  rw [h1]
  simp only [Option.some.injEq]
  rw [if_neg h2]
  simp only [Option.some.injEq, List.any_eq_true]
  constructor
  · rintro ⟨p, hp, hf⟩
    cases hl : lookupCl newCLs p.1 with
    | none => rw [hl] at hf; simp at hf
    | some np =>
      rw [hl] at hf
      exact ⟨p, hp, np, hl, by simpa using hf⟩
  · rintro ⟨p, hp, np, hl, hle⟩
    refine ⟨p, hp, ?_⟩
    rw [hl]
    simpa using hle

/-- Witness for `isBuildOutdated_diff_sets` at the concrete input named by the
claim: registry `{1000 ↦ 2, 2000 ↦ 1}` and a build whose refs parse to
`{1000 ↦ 1}` is outdated. -/
theorem isBuildOutdated_diff_sets_witness :
    parseRefsToMap (str "refs/changes/00/1000/1") = some [(1000, 1)] ∧
    sortedKeys [(1000, 1)] ≠ sortedKeys [(1000, 2), (2000, 1)] ∧
    isBuildOutdated (str "refs/changes/00/1000/1") [(1000, 2), (2000, 1)] = some true :=
  ⟨by decide, by decide,
   (isBuildOutdated_diff_sets _ [(1000, 2), (2000, 1)] [(1000, 1)]
      (by decide) (by decide)).mpr ⟨(1000, 1), by decide, 2, by decide, by decide⟩⟩

/-! ## Changes and change-groups -/

/-- The presubmit-test directive carried by a Gerrit change
(`gerrit.PresubmitTestType` in the source). -/
inductive PresubmitTestType where
  | none
  | all
  deriving DecidableEq, Repr

/-- One open Gerrit change, restricted to the attributes the query command
reads: reference string, project name, owner email and presubmit directive. -/
structure Change where
  reference : Str
  project : Str
  ownerEmail : Str
  presubmitTest : PresubmitTestType
  deriving DecidableEq, Repr

/-- `gerrit.CLList`: one change-group. -/
abbrev CLList := List Change

/-- The hard-coded whitelist of non-Google owner emails from the source. -/
def emailWhitelist : List Str :=
  [str "aaron@azinman.com", str "aaron@empiric.al"]

/-- `checkEmailAddress` from the source: the email is trusted when it ends in
`@google.com` or its lower-cased form is on the whitelist. -/
def checkEmailAddress (email : Str) : Bool :=
  strHasSuffix email (str "@google.com") ||
    emailWhitelist.any fun we => we == strToLower email

/-- `isKnownProject` from the source: whether the change's project is among
the projects of the loaded manifest (modelled by their names). -/
def isKnownProject (cl : Change) (projects : List Str) : Bool :=
  projects.any fun p => p == cl.project

/-- The `http://go/vcl/%d/%d` string built for each change of a group. -/
def vclLink (cl patchset : Nat) : Str :=
  str "http://go/vcl/" ++ natToStr cl ++ str "/" ++ natToStr patchset

/-- `processCLListResult` from the source. -/
structure processCLListResult where
  clMap : clNumberToPatchsetMap
  clString : Str
  skipPresubmitTest : Bool
  hasNonGoogleOwner : Bool
  projects : List Str
  refs : List Str
  filteredCLList : CLList
  deriving DecidableEq, Repr

/-- The loop body of `processCLList`, with the loop state passed explicitly:
unknown-project changes are dropped; each kept change must parse
(`none` models the Go function returning a nil pointer on parse failure);
`skipPresubmitTest` is or-accumulated while `hasNonGoogleOwner` is plainly
overwritten on every kept change, exactly as in the source. -/
def processCLListLoop (projectsOfManifest : Option (List Str)) :
    CLList → clNumberToPatchsetMap → List Str → Bool → Bool → List Str → List Str →
      CLList → Option processCLListResult
  | [], curCLMap, clStrings, skip, hasNonGoogle, projs, refs, filtered =>
    some { clMap := curCLMap
           clString := strJoin (str ", ") clStrings
           skipPresubmitTest := skip
           hasNonGoogleOwner := hasNonGoogle
           projects := projs
           refs := refs
           filteredCLList := filtered }
  | curCL :: rest, curCLMap, clStrings, skip, hasNonGoogle, projs, refs, filtered =>
    if (match projectsOfManifest with
        | some ps => ! isKnownProject curCL ps
        | none => false) then
      processCLListLoop projectsOfManifest rest curCLMap clStrings skip hasNonGoogle
        projs refs filtered
    else
      match ParseRefString curCL.reference with
      | none => none
      | some (cl, patchset) =>
        processCLListLoop projectsOfManifest rest
          (insertCl curCLMap cl patchset)
          (clStrings ++ [vclLink cl patchset])
          (skip || curCL.presubmitTest == PresubmitTestType.none)
          (! checkEmailAddress curCL.ownerEmail)
          (projs ++ [curCL.project])
          (refs ++ [curCL.reference])
          (filtered ++ [curCL])

/-- `clsSender.processCLList` from the source; `none` models the nil pointer
returned when a kept change's reference string fails to parse. -/
def processCLList (projectsOfManifest : Option (List Str)) (curCLList : CLList) :
    Option processCLListResult :=
  processCLListLoop projectsOfManifest curCLList [] [] false false [] [] []

/-! ## Test-list computation -/

/-- Modelled from the spec: the project→test configuration loaded from the
tool-configuration store (`tooldata.Config`, not among the provided sources):
a mapping from touched projects to configured test names plus an optional
per-test part list. -/
structure TestConfig where
  projectTests : List Str → List Str
  testParts : Str → Option (List Str)

/-- Modelled from the spec: the helper `testNameWithPartSuffix` is defined in
a presubmit source file that is not among the provided sources; per the spec a
sharded test name is `<test>-part<i>`. -/
def testNameWithPartSuffix (testName : Str) (part : Nat) : Str :=
  testName ++ str "-part" ++ natToStr part

/-- The per-test expansion step of `getTestsToRun`: a test with a declared
part list is expanded into `<test>-part<i>` for `i = 0 .. parts.length`
(the loop `for i := 0; i <= len(parts); i++` of the source), a test without
parts stays as is. -/
def expandTest (config : TestConfig) (test : Str) : List Str :=
  match config.testParts test with
  | some parts => (List.range (parts.length + 1)).map (testNameWithPartSuffix test)
  | none => [test]

/-- `clsSender.getTestsToRun` from the source, with the configuration already
loaded: map the touched projects through the configuration, expand multi-part
tests, and sort the result. -/
def getTestsToRun (config : TestConfig) (projects : List Str) : List Str :=
  let tmpTests := config.projectTests projects
  let tests := tmpTests.flatMap (expandTest config)
  List.insertionSort (· ≤ ·) tests

/-! ## The sender loop -/

/-- Modelled from the spec: `genStartPresubmitBuildLink` is defined in a
presubmit source file that is not among the provided sources; per the spec it
is an instructional link for manually triggering the presubmit build, built
from the group's refs, projects and tests. -/
def genStartPresubmitBuildLink (refs projects tests : Str) : Str :=
  str "https://dev.v.io/jenkins/job/presubmit-test/buildWithParameters?REFS=" ++
    refs ++ str "&PROJECTS=" ++ projects ++ str "&TESTS=" ++ tests

/-- The message posted by `clsSender.handleNonGoogleOwner`. -/
def nonGoogleOwnerMessage (refs projects tests : List Str) : Str :=
  str "A Vanadium team member will manually trigger presubmit tests for this change:\n" ++
    genStartPresubmitBuildLink (strJoin (str ":") refs) (strJoin (str ":") projects)
      (strJoin (str " ") tests) ++ str "\n"

/-- `clsSender` from the source.  The function fields carry the results of the
injected collaborators (`removeOutdatedFn`, `addPresubmitFn`, `postMessageFn`,
with `some e` modelling a non-nil error), and `config` carries the result of
`tooldata.LoadConfig` consumed by `getTestsToRun`. -/
structure clsSender where
  clLists : List CLList
  projects : Option (List Str)
  config : Except Str TestConfig
  removeOutdatedFn : clNumberToPatchsetMap → List (Option Str)
  addPresubmitFn : CLList → List Str → Option Str
  postMessageFn : Str → List Str → Bool → Option Str

/-- The observable side effects accumulated by one `sendCLListsToPresubmitTest`
run: CLs counted as sent, messages posted to Gerrit, outdated-build removals
requested, and presubmit builds triggered. -/
structure SendState where
  clsSent : Nat := 0
  posted : List (Str × List Str × Bool) := []
  removeCalls : List clNumberToPatchsetMap := []
  triggerCalls : List (CLList × List Str) := []
  deriving DecidableEq, Repr

/-- How one `sendCLListsToPresubmitTest` run ends: normally, with a returned
error, or with the nil-pointer dereference panic. -/
inductive SendOutcome where
  | ok
  | fatal (e : Str)
  | panicked
  deriving DecidableEq, Repr

/-- The group loop of `clsSender.sendCLListsToPresubmitTest`, translated
branch for branch from the source: empty filtered groups are skipped;
`presubmit=none` groups and no-test groups post a verified message (a failed
post is returned as an error); groups whose computed owner flag is set post
the manual-trigger link (a failed post is returned as an error); otherwise
outdated builds are removed (errors only printed) and the build is triggered
(a failed trigger is only printed, and the sent counter grows only on
success).  A `none` from `processCLList` is dereferenced by the caller, which
the model records as `panicked`. -/
def sendLoop (s : clsSender) : List CLList → SendState → SendState × SendOutcome
  | [], st => (st, SendOutcome.ok)
  | curCLList :: rest, st =>
    match processCLList s.projects curCLList with
    | none => (st, SendOutcome.panicked)
    | some clListInfo =>
      let filtered := clListInfo.filteredCLList
      if filtered.isEmpty then sendLoop s rest st
      else if clListInfo.skipPresubmitTest then
        let st := { st with
          posted := st.posted ++ [(str "Presubmit tests skipped.\n", clListInfo.refs, true)] }
        match s.postMessageFn (str "Presubmit tests skipped.\n") clListInfo.refs true with
        | some e => (st, SendOutcome.fatal e)
        | none => sendLoop s rest st
      else
        match s.config with
        | Except.error e => (st, SendOutcome.fatal e)
        | Except.ok config =>
          let tests := getTestsToRun config clListInfo.projects
          if tests.isEmpty then
            let st := { st with
              posted := st.posted ++ [(str "No tests found.\n", clListInfo.refs, true)] }
            match s.postMessageFn (str "No tests found.\n") clListInfo.refs true with
            | some e => (st, SendOutcome.fatal e)
            | none => sendLoop s rest st
          else if clListInfo.hasNonGoogleOwner then
            let msg := nonGoogleOwnerMessage clListInfo.refs clListInfo.projects tests
            let st := { st with posted := st.posted ++ [(msg, clListInfo.refs, false)] }
            match s.postMessageFn msg clListInfo.refs false with
            | some e => (st, SendOutcome.fatal e)
            | none => sendLoop s rest st
          else
            let st := { st with removeCalls := st.removeCalls ++ [clListInfo.clMap] }
            let st := { st with triggerCalls := st.triggerCalls ++ [(filtered, tests)] }
            match s.addPresubmitFn filtered tests with
            | some _ => sendLoop s rest st
            | none => sendLoop s rest { st with clsSent := st.clsSent + filtered.length }

/-- `clsSender.sendCLListsToPresubmitTest` from the source. -/
def sendCLListsToPresubmitTest (s : clsSender) : SendState × SendOutcome :=
  sendLoop s s.clLists {}

/-! ## Concrete fixtures -/

/-- A change that opts out of presubmit testing (`PresubmitTest: none`). -/
def clSkip : Change :=
  { reference := str "refs/changes/11/1100/1"
    project := str "proj"
    ownerEmail := str "dev@google.com"
    presubmitTest := PresubmitTestType.none }

/-- An ordinary trusted-owner change. -/
def clNormal : Change :=
  { reference := str "refs/changes/22/2200/1"
    project := str "proj"
    ownerEmail := str "dev@google.com"
    presubmitTest := PresubmitTestType.all }

/-- A change whose owner fails the trusted check. -/
def clEvil : Change :=
  { reference := str "refs/changes/10/1010/1"
    project := str "proj"
    ownerEmail := str "mallory@example.com"
    presubmitTest := PresubmitTestType.all }

/-- A change whose reference string cannot be parsed. -/
def clBadRef : Change :=
  { reference := str "not-a-ref"
    project := str "proj"
    ownerEmail := str "dev@google.com"
    presubmitTest := PresubmitTestType.all }

/-- A configuration with one partless test for every project. -/
def cfgUnit : TestConfig :=
  { projectTests := fun _ => [str "unit"]
    testParts := fun _ => Option.none }

/-- A sender whose posting collaborator always fails. -/
def sPostFails : clsSender :=
  { clLists := [[clSkip], [clNormal]]
    projects := Option.none
    config := Except.ok cfgUnit
    removeOutdatedFn := fun _ => []
    addPresubmitFn := fun _ _ => Option.none
    postMessageFn := fun _ _ _ => some (str "post failed") }

/-- `sPostFails` with a healthy posting collaborator but a failing
build-trigger collaborator. -/
def sTriggerFails : clsSender :=
  { sPostFails with
    postMessageFn := fun _ _ _ => Option.none
    addPresubmitFn := fun _ _ => some (str "trigger failed") }

/-- A sender processing one group whose first member has an untrusted owner
and whose last member has a trusted one. -/
def sOwnerBug : clsSender :=
  { clLists := [[clEvil, clNormal]]
    projects := Option.none
    config := Except.ok cfgUnit
    removeOutdatedFn := fun _ => []
    addPresubmitFn := fun _ _ => Option.none
    postMessageFn := fun _ _ _ => Option.none }

/-- A sender processing one group whose only member passes the project filter
but has an unparsable reference. -/
def sBadRef : clsSender :=
  { clLists := [[clBadRef]]
    projects := some [str "proj"]
    config := Except.ok cfgUnit
    removeOutdatedFn := fun _ => []
    addPresubmitFn := fun _ _ => Option.none
    postMessageFn := fun _ _ _ => Option.none }

/-! ## C5: which per-group failures abort the sender loop -/

/-- When every message post succeeds and the configuration loads, the sender
loop never ends with an error, whatever the build-trigger collaborator does:
trigger failures are logged and the loop continues. -/
theorem sendLoop_ok_of_post_ok (s : clsSender) (config : TestConfig)
    (hcfg : s.config = Except.ok config)
    (hpost : ∀ m r b, s.postMessageFn m r b = Option.none) :
    ∀ lists st, (∀ l ∈ lists, (processCLList s.projects l).isSome = true) →
      (sendLoop s lists st).2 = SendOutcome.ok := by
  intro lists
  induction lists with
  | nil => intro st _; rfl
  | cons l rest ih =>
    intro st hall
    have hl := hall l (List.mem_cons_self l rest)
    have htail : ∀ l' ∈ rest, (processCLList s.projects l').isSome = true :=
      fun l' hl' => hall l' (List.mem_cons_of_mem l hl')
    cases hp : processCLList s.projects l with
    | none => rw [hp] at hl; simp at hl
    | some info =>
      simp only [sendLoop, hp, hcfg, hpost]
      repeat' split
      all_goals exact ih _ htail

/-- C5 (amended): a failure while triggering a build for one group is logged
and processing proceeds to the next group, never making
`sendCLListsToPresubmitTest` return an error; a failure while posting a
message, by contrast, is returned as an error (see
`sendCLLists_post_failure_aborts`).  Hypotheses: the configuration loads,
every post succeeds, and every group's references parse. -/
theorem sendCLLists_trigger_failure_isolated (s : clsSender) (config : TestConfig)
    (hcfg : s.config = Except.ok config)
    (hpost : ∀ m r b, s.postMessageFn m r b = Option.none)
    (hparse : ∀ l ∈ s.clLists, (processCLList s.projects l).isSome = true) :
    (sendCLListsToPresubmitTest s).2 = SendOutcome.ok :=
  sendLoop_ok_of_post_ok s config hcfg hpost s.clLists {} hparse

/-- Witness for `sendCLLists_trigger_failure_isolated`: with a failing
build-trigger collaborator the run still ends without error. -/
theorem sendCLLists_trigger_failure_isolated_witness :
    (sendCLListsToPresubmitTest sTriggerFails).2 = SendOutcome.ok :=
  sendCLLists_trigger_failure_isolated sTriggerFails cfgUnit rfl
    (fun _ _ _ => rfl) (by decide)

/-- C5 counterexample: with a first group taking the `presubmit=none` skip
path and a posting collaborator that fails, `sendCLListsToPresubmitTest`
returns that error, and the second group — which the same sender with a
healthy posting collaborator does trigger — is never processed. -/
theorem sendCLLists_post_failure_aborts :
    (sendCLListsToPresubmitTest sPostFails).2 = SendOutcome.fatal (str "post failed") ∧
    (sendCLListsToPresubmitTest sPostFails).1.triggerCalls = [] ∧
    (sendCLListsToPresubmitTest { sPostFails with
        postMessageFn := fun _ _ _ => Option.none }).1.triggerCalls =
      [([clNormal], [str "unit"])] := by
  refine ⟨rfl, rfl, rfl⟩

/-! ## C6: the owner check only sees the last member -/

/-- C6 (code bug): `processCLList` overwrites `hasNonGoogleOwner` on every
kept change instead of or-accumulating it, so only the last kept member's
owner decides.  With a first member whose owner fails `checkEmailAddress` and
a trusted last member the flag ends up `false`, and the group is sent to
presubmit testing with no instructional link posted — against the claim and
the code's own comment ("at least one of them has an non-google owner").
Reversing the group order flips the flag, showing the order dependence. -/
theorem processCLList_owner_flag_last_member_only :
    checkEmailAddress (str "mallory@example.com") = false ∧
    (processCLList Option.none [clEvil, clNormal]).map
        processCLListResult.hasNonGoogleOwner = some false ∧
    (sendCLListsToPresubmitTest sOwnerBug).1.triggerCalls =
      [([clEvil, clNormal], [str "unit"])] ∧
    (sendCLListsToPresubmitTest sOwnerBug).1.posted = [] ∧
    (processCLList Option.none [clNormal, clEvil]).map
        processCLListResult.hasNonGoogleOwner = some true := by
  refine ⟨rfl, rfl, rfl, rfl, rfl⟩

/-! ## C7: shard expansion and sorting of the test list -/

/-- Number of occurrences of a test name in a test list. -/
def countStr (x : Str) : List Str → Nat
  | [] => 0
  | y :: rest => (if y = x then 1 else 0) + countStr x rest

/-- Occurrence counts are invariant under permutation. -/
theorem countStr_perm (x : Str) {l1 l2 : List Str} (p : List.Perm l1 l2) :
    countStr x l1 = countStr x l2 := by
  induction p with
  | nil => rfl
  | cons a _ ih => simp [countStr, ih]
  | swap a b l => simp only [countStr]; omega
  | trans _ _ ih1 ih2 => exact ih1.trans ih2

/-- An absent name occurs zero times. -/
theorem countStr_eq_zero_of_not_mem (x : Str) {l : List Str} (h : x ∉ l) :
    countStr x l = 0 := by
  induction l with
  | nil => rfl
  | cons y rest ih =>
    have hxy : ¬ (y = x) := fun hyx => h (by rw [hyx]; exact List.mem_cons_self x rest)
    have hxr : x ∉ rest := fun hm => h (List.mem_cons_of_mem y hm)
    simp only [countStr]
    rw [if_neg hxy, ih hxr]

/-- In a duplicate-free list every member occurs exactly once. -/
theorem countStr_eq_one_of_mem (x : Str) {l : List Str} (hnd : l.Nodup)
    (hm : x ∈ l) : countStr x l = 1 := by
  induction l with
  | nil => cases hm
  | cons y rest ih =>
    rw [List.nodup_cons] at hnd
    rcases List.mem_cons.mp hm with h | h
    · simp only [countStr]
      rw [if_pos h.symm, countStr_eq_zero_of_not_mem x (by rw [h]; exact hnd.1)]
    · simp only [countStr]
      rw [ih hnd.2 h, if_neg (fun hyx => hnd.1 (by rw [hyx]; exact h))]

/-- C7: `getTestsToRun` returns a sorted list in which each configured test
with a declared part list of length `partCount` appears once as
`<test>-part<i>` for every `i` from `0` to `partCount` inclusive (that is,
`partCount + 1` occurrences), and each test without parts appears once
unchanged.  The hypothesis says the expanded names are pairwise distinct
(no configured test name collides with another's shard names), which is what
makes the counts exactly one. -/
theorem getTestsToRun_shards_and_sorts (config : TestConfig) (projects : List Str)
    (hnd : ((config.projectTests projects).flatMap (expandTest config)).Nodup) :
    List.Sorted (· ≤ ·) (getTestsToRun config projects) ∧
    ∀ test ∈ config.projectTests projects,
      (∀ parts, config.testParts test = some parts →
        ∀ i ≤ parts.length,
          countStr (testNameWithPartSuffix test i) (getTestsToRun config projects) = 1) ∧
      (config.testParts test = Option.none →
        countStr test (getTestsToRun config projects) = 1) := by
  have hunf : getTestsToRun config projects =
      List.insertionSort (· ≤ ·) ((config.projectTests projects).flatMap (expandTest config)) :=
    rfl
  have hperm : List.Perm (getTestsToRun config projects)
      ((config.projectTests projects).flatMap (expandTest config)) := by
    rw [hunf]; exact List.perm_insertionSort _ _
  refine ⟨by rw [hunf]; exact List.sorted_insertionSort _ _, ?_⟩
  intro test htest
  constructor
  · intro parts hparts i hi
    rw [countStr_perm _ hperm]
    apply countStr_eq_one_of_mem _ hnd
    refine List.mem_flatMap.mpr ⟨test, htest, ?_⟩
    unfold expandTest
    rw [hparts]
    exact List.mem_map.mpr ⟨i, List.mem_range.mpr (Nat.lt_succ_of_le hi), rfl⟩
  · intro hnone
    rw [countStr_perm _ hperm]
    apply countStr_eq_one_of_mem _ hnd
    refine List.mem_flatMap.mpr ⟨test, htest, ?_⟩
    unfold expandTest
    rw [hnone]
    exact List.mem_singleton.mpr rfl

/-- A configuration with one two-part test and one partless test. -/
def cfgParts : TestConfig :=
  { projectTests := fun _ => [str "vjs", str "tgo"]
    testParts := fun t => if t = str "vjs" then some [str "p1", str "p2"] else Option.none }

/-- Witness for `getTestsToRun_shards_and_sorts` on `cfgParts`. -/
theorem getTestsToRun_shards_and_sorts_witness :
    List.Sorted (· ≤ ·) (getTestsToRun cfgParts []) ∧
    countStr (testNameWithPartSuffix (str "vjs") 2) (getTestsToRun cfgParts []) = 1 ∧
    countStr (str "tgo") (getTestsToRun cfgParts []) = 1 := by
  have h := getTestsToRun_shards_and_sorts cfgParts [] (by decide)
  exact ⟨h.1,
    (h.2 (str "vjs") (by decide)).1 [str "p1", str "p2"] rfl 2 (by decide),
    (h.2 (str "tgo") (by decide)).2 rfl⟩

/-! ## C8: the nil-pointer crash on an unparsable reference -/

/-- C8: a change that passes the known-project filter but whose reference
string fails to parse makes `processCLList` return the nil result, and
`sendCLListsToPresubmitTest` dereferences that result without a nil check:
processing of the group list crashes instead of skipping or reporting the
malformed group. -/
theorem sendCLLists_crashes_on_unparsable_ref :
    isKnownProject clBadRef [str "proj"] = true ∧
    ParseRefString clBadRef.reference = Option.none ∧
    processCLList sBadRef.projects [clBadRef] = Option.none ∧
    (sendCLListsToPresubmitTest sBadRef).2 = SendOutcome.panicked := by
  refine ⟨rfl, rfl, rfl, rfl⟩

/-! ## C9: removeQueuedOutdatedBuilds stops at an empty refs string -/

/-- One queued CI build, keyed by its queue id and exposing the (possibly
empty) refs string its `ParseRefs()` accessor yields. -/
structure QueuedBuild where
  id : Nat
  refs : Str
  deriving DecidableEq, Repr

/-- The collaborator results consumed by `removeQueuedOutdatedBuilds`: whether
the Jenkins client could be obtained, the queued-build listing, and the
success of each cancellation request by queue id. -/
structure QueueEnv where
  jenkinsOk : Bool
  queuedBuilds : Except Str (List QueuedBuild)
  cancelOk : Nat → Bool

/-- The queued-build loop of `removeQueuedOutdatedBuilds`, accumulating the
ids of the builds cancelled so far.  An empty refs string makes the loop
`return err` — and at that point `err` is the long-dead nil error of the
successful `QueuedBuilds` call, so the function returns successfully with
whatever was already cancelled, checking and cancelling nothing further. -/
def processQueuedAux (env : QueueEnv) (cls : clNumberToPatchsetMap) :
    List QueuedBuild → List Nat → Except Str (List Nat)
  | [], acc => Except.ok acc
  | build :: rest, acc =>
    if build.refs = [] then Except.ok acc
    else
      match isBuildOutdated build.refs cls with
      | none => Except.error (str "isBuildOutdated failed")
      | some true =>
        if env.cancelOk build.id then processQueuedAux env cls rest (acc ++ [build.id])
        else Except.error (str "CancelQueuedBuild failed")
      | some false => processQueuedAux env cls rest acc

/-- `removeQueuedOutdatedBuilds` from the source, returning the ids of the
queued builds it cancelled. -/
def removeQueuedOutdatedBuilds (env : QueueEnv) (cls : clNumberToPatchsetMap) :
    Except Str (List Nat) :=
  if env.jenkinsOk then
    match env.queuedBuilds with
    | Except.error e => Except.error e
    | Except.ok queued => processQueuedAux env cls queued []
  else Except.error (str "jenkins")

/-- Splitting lemma: when the loop over a plain prefix already ends
successfully, appending a build with an empty refs string (and anything after
it) leaves the successful result unchanged — the suffix is never examined. -/
theorem processQueuedAux_append_empty_refs (env : QueueEnv)
    (cls : clNumberToPatchsetMap) (build : QueuedBuild) (post : List QueuedBuild)
    (hb : build.refs = []) :
    ∀ pre acc l, processQueuedAux env cls pre acc = Except.ok l →
      processQueuedAux env cls (pre ++ build :: post) acc = Except.ok l := by
  intro pre
  induction pre with
  | nil =>
    intro acc l hpre
    simp only [processQueuedAux] at hpre
    simp only [List.nil_append, processQueuedAux, if_pos hb]
    exact hpre
  | cons q qs ih =>
    intro acc l hpre
    simp only [List.cons_append, processQueuedAux] at hpre ⊢
    by_cases hq : q.refs = []
    · rw [if_pos hq] at hpre ⊢
      exact hpre
    · rw [if_neg hq] at hpre ⊢
      split at hpre
      · simp at hpre
      · rename_i ho
        try simp only [ho]
        by_cases hc : env.cancelOk q.id = true
        · rw [if_pos hc] at hpre ⊢
          exact ih _ _ hpre
        · rw [if_neg hc] at hpre
          simp at hpre
      · rename_i ho
        try simp only [ho]
        exact ih _ _ hpre

/-- C9: if a queued build's `ParseRefs()` yields the empty string,
`removeQueuedOutdatedBuilds` returns immediately with a nil error: the
cancellations performed are exactly those of the builds before it, and
neither that build nor any build after it is checked or cancelled. -/
theorem removeQueued_returns_nil_on_empty_refs (env : QueueEnv)
    (cls : clNumberToPatchsetMap) (pre post : List QueuedBuild)
    (build : QueuedBuild) (l : List Nat)
    (hj : env.jenkinsOk = true)
    (hq : env.queuedBuilds = Except.ok (pre ++ build :: post))
    (hb : build.refs = [])
    (hpre : processQueuedAux env cls pre [] = Except.ok l) :
    removeQueuedOutdatedBuilds env cls = Except.ok l := by
  unfold removeQueuedOutdatedBuilds
  rw [hj, if_pos rfl, hq]
  exact processQueuedAux_append_empty_refs env cls build post hb pre [] l hpre

/-- A queue with one cancellable outdated build, then a build with an empty
refs string, then a build that would error had it been examined. -/
def queueEnvC9 : QueueEnv :=
  { jenkinsOk := true
    queuedBuilds := Except.ok
      [ { id := 1, refs := str "refs/changes/00/1000/1" }
      , { id := 2, refs := [] }
      , { id := 3, refs := str "garbage" } ]
    cancelOk := fun n => n == 1 }

/-- Witness for `removeQueued_returns_nil_on_empty_refs`: only build 1 is
cancelled; builds 2 and 3 are never examined. -/
theorem removeQueued_returns_nil_on_empty_refs_witness :
    processQueuedAux queueEnvC9 [(1000, 2)]
      [{ id := 1, refs := str "refs/changes/00/1000/1" }] [] = Except.ok [1] ∧
    removeQueuedOutdatedBuilds queueEnvC9 [(1000, 2)] = Except.ok [1] :=
  ⟨rfl,
   removeQueued_returns_nil_on_empty_refs queueEnvC9 [(1000, 2)]
     [{ id := 1, refs := str "refs/changes/00/1000/1" }]
     [{ id := 3, refs := str "garbage" }]
     { id := 2, refs := [] } [1] rfl rfl rfl rfl⟩

/-! ## The query command -/

/-- The last completed build's status, as reported by the CI system. -/
structure BuildStatus where
  result : Str
  deriving DecidableEq, Repr

/-- The collaborator results consumed by one `runQuery` run, in source order:
the Jenkins client construction, the last-completed-build status, the log
read, the Gerrit base URL, the Gerrit query, the log write, the Jenkins host
flag, `gerrit.NewOpenCLs` (grouper and diff engine of the external gerrit
library, given abstractly: its groups plus its multi-part errors, a `some`
ref marking a postable change error), the manifest load (`none` for a nil
project set), the tool configuration, the three collaborators wired into
`clsSender`, and the submittable-CL computation with per-list submission
results. -/
structure QueryEnv where
  jenkinsOk : Bool
  lastBuild : Except Str BuildStatus
  readLogResult : Except Str clNumberToPatchsetMap
  gerritUrlOk : Bool
  queryResult : Except Str CLList
  writeLogOk : Bool
  jenkinsHost : Str
  newOpenCLs : clNumberToPatchsetMap → CLList → List CLList × List (Option Str)
  manifest : Except Str (Option (List Str))
  config : Except Str TestConfig
  removeOutdatedFn : clNumberToPatchsetMap → List (Option Str)
  addPresubmitFn : CLList → List Str → Option Str
  postMessageFn : Str → List Str → Bool → Option Str
  submittable : CLList → List CLList
  submitResult : CLList → Option Str

/-- What one `runQuery` run observably did: whether the log was read, whether
the Gerrit query was attempted and succeeded, whether the log write was
reached (the `WriteLog` call happens exactly then), the multi-part error refs
posted, the sender's side effects, and the sent count the run reports. -/
structure QueryTrace where
  logRead : Bool := false
  queryAttempted : Bool := false
  querySucceeded : Bool := false
  logWritten : Bool := false
  mpPosted : List Str := []
  send : SendState := {}
  numSent : Nat := 0
  deriving Repr

/-- How one `runQuery` run ends. -/
inductive RunOutcome where
  | ok
  | failed (e : Str)
  | panicked
  deriving DecidableEq, Repr

/-- The submit loop at the bottom of `runQuery`: submit each submittable CL
list, returning the first submission error. -/
def submitLoop (submitResult : CLList → Option Str) :
    List CLList → QueryTrace → QueryTrace × RunOutcome
  | [], t => (t, RunOutcome.ok)
  | l :: rest, t =>
    match submitResult l with
    | some e => (t, RunOutcome.failed e)
    | none => submitLoop submitResult rest t

/-- `runQuery` after the last-completed-build check, translated statement for
statement from the source: read the log (errors abort), compute the Gerrit
base URL (errors abort), query Gerrit (errors abort, wrapped), write the log
(errors abort — but the write has happened), stop silently on an empty
Jenkins host or an empty previous-CL map, group the new CLs and post
multi-part errors (post results ignored), load the manifest (errors abort),
run the sender, and finally submit submittable CLs. -/
def runQueryRest (env : QueryEnv) : QueryTrace × RunOutcome :=
  let t : QueryTrace := { logRead := true }
  match env.readLogResult with
  | Except.error e => (t, RunOutcome.failed e)
  | Except.ok prevCLsMap =>
    if !env.gerritUrlOk then (t, RunOutcome.failed (str "gerritBaseUrl failed"))
    else
      let t := { t with queryAttempted := true }
      match env.queryResult with
      | Except.error e => (t, RunOutcome.failed (str "Query failed: " ++ e))
      | Except.ok curCLs =>
        let t := { t with querySucceeded := true, logWritten := true }
        if !env.writeLogOk then (t, RunOutcome.failed (str "WriteLog failed"))
        else if env.jenkinsHost.isEmpty then (t, RunOutcome.ok)
        else if prevCLsMap.isEmpty then (t, RunOutcome.ok)
        else
          let groups := env.newOpenCLs prevCLsMap curCLs
          let t := { t with mpPosted := groups.2.filterMap id }
          match env.manifest with
          | Except.error e => (t, RunOutcome.failed e)
          | Except.ok projectsOfManifest =>
            let s : clsSender :=
              { clLists := groups.1
                projects := projectsOfManifest
                config := env.config
                removeOutdatedFn := env.removeOutdatedFn
                addPresubmitFn := env.addPresubmitFn
                postMessageFn := env.postMessageFn }
            let res := sendCLListsToPresubmitTest s
            let t := { t with send := res.1 }
            match res.2 with
            | SendOutcome.panicked => (t, RunOutcome.panicked)
            | SendOutcome.fatal e => (t, RunOutcome.failed e)
            | SendOutcome.ok =>
              let t := { t with numSent := res.1.clsSent }
              submitLoop env.submitResult (env.submittable curCLs) t

/-- `runQuery` from the source: construct the Jenkins client (errors abort),
then skip the whole round successfully when the last completed presubmit-test
build reports `FAILURE` (an error fetching that status is only logged), and
otherwise proceed with `runQueryRest`. -/
def runQuery (env : QueryEnv) : QueryTrace × RunOutcome :=
  if !env.jenkinsOk then ({}, RunOutcome.failed (str "jenkins")) else
  match env.lastBuild with
  | Except.ok lastBuildInfo =>
    if lastBuildInfo.result = str "FAILURE" then ({}, RunOutcome.ok)
    else runQueryRest env
  | Except.error _ => runQueryRest env

/-- The submit loop never changes the trace. -/
theorem submitLoop_fst (submitResult : CLList → Option Str) :
    ∀ lists t, (submitLoop submitResult lists t).1 = t := by
  intro lists
  induction lists with
  | nil => intro t; rfl
  | cons l rest ih =>
    intro t
    simp only [submitLoop]
    cases submitResult l with
    | some e => rfl
    | none => exact ih t

/-! ## C3: an empty previous-CL map sends nothing -/

/-- C3: in every run whose log read yields an empty previous-CL map, nothing
is sent to presubmit testing: the reported sent count is zero, no build is
triggered and no outdated-build removal is requested, regardless of the
current query's result. -/
theorem runQuery_empty_prev_sends_nothing (env : QueryEnv)
    (h : env.readLogResult = Except.ok []) :
    (runQuery env).1.numSent = 0 ∧
    (runQuery env).1.send.triggerCalls = [] ∧
    (runQuery env).1.send.removeCalls = [] := by
  have hrest : (runQueryRest env).1.numSent = 0 ∧
      (runQueryRest env).1.send.triggerCalls = [] ∧
      (runQueryRest env).1.send.removeCalls = [] := by
    unfold runQueryRest
    simp only [h]
    repeat' split
    all_goals first
      | exact ⟨rfl, rfl, rfl⟩
      | simp_all
  unfold runQuery
  repeat' split
  all_goals first
    | exact hrest
    | exact ⟨rfl, rfl, rfl⟩

/-- A fully concrete healthy environment. -/
def envBase : QueryEnv :=
  { jenkinsOk := true
    lastBuild := Except.ok { result := str "SUCCESS" }
    readLogResult := Except.ok [(100, 1)]
    gerritUrlOk := true
    queryResult := Except.ok []
    writeLogOk := true
    jenkinsHost := str "veyron-jenkins"
    newOpenCLs := fun _ _ => ([], [])
    manifest := Except.ok Option.none
    config := Except.ok cfgUnit
    removeOutdatedFn := fun _ => []
    addPresubmitFn := fun _ _ => Option.none
    postMessageFn := fun _ _ _ => Option.none
    submittable := fun _ => []
    submitResult := fun _ => Option.none }

/-- Witness for `runQuery_empty_prev_sends_nothing` on a concrete run. -/
theorem runQuery_empty_prev_sends_nothing_witness :
    ({ envBase with readLogResult := Except.ok [] } : QueryEnv).readLogResult =
      Except.ok [] ∧
    (runQuery { envBase with readLogResult := Except.ok [] }).1.numSent = 0 ∧
    (runQuery { envBase with readLogResult := Except.ok [] }).1.send.triggerCalls = [] ∧
    (runQuery { envBase with readLogResult := Except.ok [] }).1.send.removeCalls = [] :=
  ⟨rfl, runQuery_empty_prev_sends_nothing { envBase with readLogResult := Except.ok [] } rfl⟩

/-! ## C4: the log is written exactly when the query succeeds -/

/-- In every run, the log write is reached exactly when the Gerrit query
succeeded. -/
theorem runQuery_logWritten_eq_querySucceeded (env : QueryEnv) :
    (runQuery env).1.logWritten = (runQuery env).1.querySucceeded := by
  have hrest : (runQueryRest env).1.logWritten = (runQueryRest env).1.querySucceeded := by
    unfold runQueryRest
    dsimp only
    repeat' split
    all_goals try rw [submitLoop_fst]
    all_goals rfl
  unfold runQuery
  repeat' split
  all_goals first
    | exact hrest
    | rfl

/-- A failed log read never writes the log, and aborts the run with that
error whenever the read was reached at all. -/
theorem runQuery_readlog_error (env : QueryEnv) (e : Str)
    (h : env.readLogResult = Except.error e) :
    (runQuery env).1.logWritten = false ∧
    ((runQuery env).1.logRead = true → (runQuery env).2 = RunOutcome.failed e) := by
  have hrest : (runQueryRest env).1.logWritten = false ∧
      (runQueryRest env).2 = RunOutcome.failed e := by
    unfold runQueryRest
    simp [h]
  unfold runQuery
  repeat' split
  all_goals first
    | exact ⟨hrest.1, fun hx => hrest.2⟩
    | exact ⟨rfl, fun hx => Bool.noConfusion hx⟩

/-- A failed Gerrit query never writes the log, and aborts the run with the
wrapped query error whenever the query was attempted at all. -/
theorem runQuery_query_error (env : QueryEnv) (e : Str)
    (h : env.queryResult = Except.error e) :
    (runQuery env).1.logWritten = false ∧
    ((runQuery env).1.queryAttempted = true →
      (runQuery env).2 = RunOutcome.failed (str "Query failed: " ++ e)) := by
  have hrest : (runQueryRest env).1.logWritten = false ∧
      ((runQueryRest env).1.queryAttempted = true →
        (runQueryRest env).2 = RunOutcome.failed (str "Query failed: " ++ e)) := by
    unfold runQueryRest
    simp only [h]
    repeat' split
    all_goals first
      | exact ⟨rfl, fun hx => Bool.noConfusion hx⟩
      | exact ⟨rfl, fun hx => rfl⟩
  unfold runQuery
  repeat' split
  all_goals first
    | exact ⟨hrest.1, hrest.2⟩
    | exact ⟨rfl, fun hx => Bool.noConfusion hx⟩

/-- C4: the persisted log is written iff the Gerrit query succeeds; in
particular a failed log read or a failed query terminates the run with that
error before any write, leaving the previous log unchanged. -/
theorem runQuery_persists_iff_query_succeeds (env : QueryEnv) :
    ((runQuery env).1.logWritten = (runQuery env).1.querySucceeded) ∧
    (∀ e, env.readLogResult = Except.error e →
      (runQuery env).1.logWritten = false ∧
      ((runQuery env).1.logRead = true → (runQuery env).2 = RunOutcome.failed e)) ∧
    (∀ e, env.queryResult = Except.error e →
      (runQuery env).1.logWritten = false ∧
      ((runQuery env).1.queryAttempted = true →
        (runQuery env).2 = RunOutcome.failed (str "Query failed: " ++ e))) :=
  ⟨runQuery_logWritten_eq_querySucceeded env,
   fun e he => runQuery_readlog_error env e he,
   fun e he => runQuery_query_error env e he⟩

/-- Witness for `runQuery_persists_iff_query_succeeds` on a concrete run with
a failing log read. -/
theorem runQuery_persists_iff_query_succeeds_witness :
    ({ envBase with readLogResult := Except.error (str "read failed") } : QueryEnv).readLogResult
      = Except.error (str "read failed") ∧
    (runQuery { envBase with readLogResult := Except.error (str "read failed") }).1.logWritten
      = false ∧
    (runQuery { envBase with readLogResult := Except.error (str "read failed") }).2
      = RunOutcome.failed (str "read failed") :=
  ⟨rfl,
   ((runQuery_persists_iff_query_succeeds
      { envBase with readLogResult := Except.error (str "read failed") }).2.1
      (str "read failed") rfl).1,
   ((runQuery_persists_iff_query_succeeds
      { envBase with readLogResult := Except.error (str "read failed") }).2.1
      (str "read failed") rfl).2 rfl⟩

/-! ## C10: the last-build-failure early exit -/

/-- C10: when the CI system reports the last completed presubmit-test build as
`FAILURE`, the run returns success immediately with the empty trace — no log
read, no query, no write, nothing sent; and when fetching that status fails,
the error is only logged and the run proceeds exactly as with a non-`FAILURE`
status. -/
theorem runQuery_skips_on_last_build_failure (env : QueryEnv) :
    (∀ lastBuildInfo, env.jenkinsOk = true →
      env.lastBuild = Except.ok lastBuildInfo →
      lastBuildInfo.result = str "FAILURE" →
      runQuery env = ({}, RunOutcome.ok)) ∧
    (∀ e lastBuildInfo, lastBuildInfo.result ≠ str "FAILURE" →
      runQuery { env with lastBuild := Except.error e } =
        runQuery { env with lastBuild := Except.ok lastBuildInfo }) := by
  constructor
  · intro lastBuildInfo hj hl hr
    unfold runQuery
    rw [hj, hl]
    simp [hr]
  · intro e lastBuildInfo hr
    obtain ⟨jOk, lastB, rlog, gUrl, qRes, wOk, jHost, nOpen, man, cfg, rFn, aFn, pFn, subm, subR⟩ := env
    unfold runQuery
    cases jOk with
    | false => rfl
    | true =>
      have hfalse : ¬((! true) = true) := by decide
      rw [if_neg hfalse, if_neg hfalse]
      dsimp only
      rw [if_neg hr]
      rfl

/-- Witness for `runQuery_skips_on_last_build_failure` on concrete runs. -/
theorem runQuery_skips_on_last_build_failure_witness :
    runQuery { envBase with lastBuild := Except.ok { result := str "FAILURE" } } =
      ({}, RunOutcome.ok) ∧
    runQuery { envBase with lastBuild := Except.error (str "status failed") } =
      runQuery { envBase with lastBuild := Except.ok { result := str "SUCCESS" } } :=
  ⟨(runQuery_skips_on_last_build_failure
      { envBase with lastBuild := Except.ok { result := str "FAILURE" } }).1
      { result := str "FAILURE" } rfl rfl rfl,
   (runQuery_skips_on_last_build_failure envBase).2
      (str "status failed") { result := str "SUCCESS" } (by decide)⟩
